import Mathlib

/-!
Shallow embedding of the jtree JSON library (github.com/ecadlabs/jtree) used to
check the claims of its natural-language specification.

Sections, each annotated with the source file it translates:
* tokenizer    — src/reader.go (rune-based reader, UTF-16 string scanning)
* parser       — src/unnamed/part_006 (recursive-descent parser over tokens)
* node model   — src/node.go (Node kinds, Object with keys plus lookup map)
* decode model — src/node.go decode dispatcher plus per-kind rules,
                 src/encoding.go (base64/hex schemes), src/utils.go
                 (collectFields struct introspection)

Machine integers are modelled as Nat/Int with explicit wrapping; Go maps are
modelled as association lists with insert-or-replace update (same lookup
semantics); fallible Go functions return Except String.  Recursive descent and
the decode engine use explicit fuel; every claim theorem quantifies over the
fuel, and concrete evaluations use a fixed large fuel.
-/

namespace Jtree

/-! ## UTF-16 model (Go package unicode/utf16, used by reader.go) -/

/-- Unicode replacement character U+FFFD, Go utf16.replacementChar. -/
def replChar : Nat := 0xFFFD

/-- Model of Go utf16.Encode restricted to a single rune: a value below
0x10000 that is not a surrogate is kept as one code unit, a value in
0x10000..0x10FFFF becomes a high/low surrogate pair, anything else becomes
U+FFFD. -/
def utf16EncodeRune (v : Nat) : List Nat :=
  if 0x10000 ≤ v ∧ v ≤ 0x10FFFF then
    [0xD800 + (v - 0x10000) / 0x400, 0xDC00 + (v - 0x10000) % 0x400]
  else if v < 0xD800 ∨ (0xE000 ≤ v ∧ v < 0x10000) then
    [v]
  else
    [replChar]

/-- Model of Go utf16.Decode: a high surrogate immediately followed by a low
surrogate combines into one scalar; any other surrogate code unit becomes
U+FFFD; other units pass through. -/
def utf16Decode : List Nat → List Nat
  | [] => []
  | [r] => if r < 0xD800 ∨ 0xE000 ≤ r then [r] else [replChar]
  | r :: r2 :: rest =>
    if r < 0xD800 ∨ 0xE000 ≤ r then
      r :: utf16Decode (r2 :: rest)
    else if r < 0xDC00 ∧ (0xDC00 ≤ r2 ∧ r2 < 0xE000) then
      ((r - 0xD800) * 0x400 + (r2 - 0xDC00) + 0x10000) :: utf16Decode rest
    else
      replChar :: utf16Decode (r2 :: rest)

/-! ## Tokenizer (src/reader.go) -/

/-- Token type of the reader: tokDelim, tokString, tokNum, tokRes carrying
the start offset (reader.go lines 10-37). -/
inductive Tok where
  | delim (c : Char) (p : Nat)
  | str (s : String) (p : Nat)
  | num (s : String) (p : Nat)
  | res (s : String) (p : Nat)
deriving DecidableEq, Repr

/-- isSpace from reader.go. -/
def isSpace (c : Char) : Bool :=
  c = ' ' ∨ c = '\t' ∨ c = '\r' ∨ c = '\n'

/-- isNum from reader.go. -/
def isNum (c : Char) : Bool :=
  ('0' ≤ c ∧ c ≤ '9') ∨ c = '+' ∨ c = '-' ∨ c = '.' ∨ c = 'e' ∨ c = 'E'

/-- Reader state: remaining runes, the one-rune pushback buffer and the
character offset (struct reader in reader.go; the eof flag is omitted since an
exhausted rune list reproduces its observable behaviour). -/
structure RSt where
  input : List Char
  unr : Option Char
  off : Nat
deriving Repr

/-- reader.rune: take from the pushback buffer first, else from the input;
none models io.EOF (the only error a strings/bytes rune source produces). -/
def readRune (r : RSt) : Option (Char × RSt) :=
  match r.unr with
  | some c => some (c, { r with unr := none, off := r.off + 1 })
  | none =>
    match r.input with
    | [] => none
    | c :: rest => some (c, { input := rest, unr := none, off := r.off + 1 })

/-- reader.unread. -/
def unread (r : RSt) (c : Char) : RSt :=
  { r with unr := some c, off := r.off - 1 }

/-- Map a simple escape character exactly as the switch in reader.string does:
b f n r t become control characters, every other character stands for
itself. -/
def escMap (c : Char) : Char :=
  if c = 'b' then Char.ofNat 8
  else if c = 'f' then Char.ofNat 12
  else if c = 'n' then '\n'
  else if c = 'r' then '\r'
  else if c = 't' then '\t'
  else c

/-- Hex digit value used by reader.string for the x and u escapes. -/
def hexVal (c : Char) : Option Nat :=
  if '0' ≤ c ∧ c ≤ '9' then some (c.toNat - '0'.toNat)
  else if 'a' ≤ c ∧ c ≤ 'f' then some (c.toNat - 'a'.toNat + 0xa)
  else if 'A' ≤ c ∧ c ≤ 'F' then some (c.toNat - 'A'.toNat + 0xa)
  else none

/-- Core loop of reader.string (reader.go lines 146-207): scans runes after
the opening quote, accumulating UTF-16 code units; esc marks a pending
backslash, ln counts hex digits still expected, code is the partial hex
value.  Returns the accumulated code units, the remaining input and the new
offset.  Structural recursion on the input; a missing closing quote is the
propagated EOF error. -/
def scanStr : List Char → Nat → Bool → Nat → Nat → List Nat →
    Except String (List Nat × List Char × Nat)
  | [], _, _, _, _, _ => .error "EOF"
  | c :: rest, off, esc, ln, code, acc =>
    if ln ≠ 0 then
      match hexVal c with
      | none =>
        .error ("jtree: invalid hexadecimal digit '" ++ String.mk [c] ++
          "' at position " ++ toString off)
      | some hex =>
        let code' := code * 16 + hex
        if ln - 1 = 0 then
          scanStr rest (off + 1) esc 0 0 (acc ++ [code' % 0x10000])
        else
          scanStr rest (off + 1) esc (ln - 1) code' acc
    else if esc then
      if c = 'u' then scanStr rest (off + 1) false 4 code acc
      else if c = 'x' then scanStr rest (off + 1) false 2 code acc
      else scanStr rest (off + 1) false 0 code
        (acc ++ utf16EncodeRune (escMap c).toNat)
    else if c = '\\' then
      scanStr rest (off + 1) true ln code acc
    else if c = '"' then
      .ok (acc, rest, off + 1)
    else
      scanStr rest (off + 1) false ln code (acc ++ utf16EncodeRune c.toNat)

/-- reader.string applied to the runes following the opening quote: scan,
then convert through utf16.Decode to the token text. -/
def strLit (cs : List Char) : Except String String :=
  (scanStr cs 0 false 0 0 []).map fun r =>
    String.mk ((utf16Decode r.1).map Char.ofNat)

/-- Number-run accumulation loop of reader.token (the digit case). -/
def scanNum : Nat → RSt → List Char → (List Char × RSt)
  | 0, r, acc => (acc, r)
  | fuel + 1, r, acc =>
    match readRune r with
    | none => (acc, r)
    | some (c, r') =>
      if isNum c then scanNum fuel r' (acc ++ [c])
      else (acc, unread r' c)

/-- Keyword-run accumulation loop of reader.token (the lowercase case). -/
def scanKw : Nat → RSt → List Char → (List Char × RSt)
  | 0, r, acc => (acc, r)
  | fuel + 1, r, acc =>
    match readRune r with
    | none => (acc, r)
    | some (c, r') =>
      if 'a' ≤ c ∧ c ≤ 'z' then scanKw fuel r' (acc ++ [c])
      else (acc, unread r' c)

/-- reader.token (reader.go lines 80-144): skip whitespace, then classify the
first rune into a number, string, delimiter or keyword token. -/
def tokenF : Nat → RSt → Except String (Tok × RSt)
  | 0, _ => .error "jtree model: token fuel exhausted"
  | fuel + 1, r =>
    match readRune r with
    | none => .error "EOF"
    | some (c, r') =>
      if isSpace c then tokenF fuel r'
      else
        let pos := r'.off - 1
        if ('0' ≤ c ∧ c ≤ '9') ∨ c = '-' ∨ c = '.' then
          let (s, r'') := scanNum fuel r' [c]
          .ok (.num (String.mk s) pos, r'')
        else if c = '"' then
          match scanStr r'.input r'.off false 0 0 [] with
          | .error e => .error e
          | .ok (u16, rest, off') =>
            .ok (.str (String.mk ((utf16Decode u16).map Char.ofNat)) pos,
              { input := rest, unr := none, off := off' })
        else if c = '{' ∨ c = '}' ∨ c = '[' ∨ c = ']' ∨ c = ',' ∨ c = ':' then
          .ok (.delim c pos, r')
        else if 'a' ≤ c ∧ c ≤ 'z' then
          let (s, r'') := scanKw fuel r' [c]
          .ok (.res (String.mk s) pos, r'')
        else
          .error ("jtree: unexpected character '" ++ String.mk [c] ++
            "' at position " ++ toString pos)

/-- Initial reader state over a source string (newReader). -/
def mkRSt (s : String) : RSt := ⟨s.toList, none, 0⟩

/-- The first token of a source string, used by concrete evaluations. -/
def firstTok (s : String) : Except String Tok :=
  (tokenF 1000 (mkRSt s)).map Prod.fst

/-! ## Node model (src/node.go) and Go-map model -/

/-- JSON AST node (the closed set of Node implementations in node.go).
A Num carries the exact value of its big.Float (the decode model works with
exact rationals; binary rounding to a 64-bit mantissa is not modelled, and no
claim depends on it).  An Object carries the key list and the lookup map of
the source Object struct; the map is modelled as an association list updated
by insert-or-replace, which has the same lookup semantics as a Go map. -/
inductive Node where
  | num (q : ℚ)
  | str (s : String)
  | obj (keys : List String) (values : List (String × Node))
  | arr (elems : List Node)
  | bool (b : Bool)
  | null

/-- Go-map lookup on the association-list model. -/
def mapGet : List (String × Node) → String → Option Node
  | [], _ => none
  | (k', v) :: rest, k => if k' = k then some v else mapGet rest k

/-- Go-map assignment on the association-list model: replace in place if the
key is present, append otherwise. -/
def mapSet : List (String × Node) → String → Node → List (String × Node)
  | [], k, v => [(k, v)]
  | (k', v') :: rest, k, v =>
    if k' = k then (k, v) :: rest else (k', v') :: mapSet rest k v

/-- Fields.NewObject (node.go lines 258-268): one keys entry per field, and
the values map assigned once per field in order. -/
def newObject (fields : List (String × Node)) : Node :=
  .obj (fields.map Prod.fst)
    (fields.foldl (fun m kv => mapSet m kv.1 kv.2) [])

/-- Object.Keys. -/
def keysOf : Node → List String
  | .obj keys _ => keys
  | _ => []

/-- Object.FieldByName. -/
def fieldByName : Node → String → Option Node
  | .obj _ values, f => mapGet values f
  | _, _ => none

/-! ## Number literal parsing (big.Float.Parse as used in part_006) -/

/-- Digit run to a natural number together with the digit count. -/
def digitsVal : List Char → Nat → Nat → (Nat × Nat)
  | [], acc, n => (acc, n)
  | c :: rest, acc, n =>
    if '0' ≤ c ∧ c ≤ '9' then digitsVal rest (acc * 10 + (c.toNat - '0'.toNat)) (n + 1)
    else (acc, n)

/-- Drop a leading run of decimal digits. -/
def dropDigits : List Char → List Char
  | [] => []
  | c :: rest => if '0' ≤ c ∧ c ≤ '9' then dropDigits rest else c :: rest

/-- Model of new(big.Float).Parse(s, 10) over exact rationals: optional sign,
a decimal mantissa with at most one point and at least one digit, an optional
decimal exponent introduced by e or E, and nothing left over.  The exact value
is returned; rounding to the 64-bit default precision is not modelled (no
claim depends on a value that the binary mantissa cannot represent). -/
def numParse (s : String) : Option ℚ :=
  let cs := s.toList
  let (sgn, cs) : ℚ × List Char :=
    match cs with
    | '-' :: rest => (-1, rest)
    | '+' :: rest => (1, rest)
    | _ => (1, cs)
  let (ipart, icnt) := digitsVal cs 0 0
  let cs := dropDigits cs
  let (fpart, fcnt, cs) : Nat × Nat × List Char :=
    match cs with
    | '.' :: rest => ((digitsVal rest 0 0).1, (digitsVal rest 0 0).2, dropDigits rest)
    | _ => (0, 0, cs)
  if icnt + fcnt = 0 then none
  else
    let mant : ℚ := (ipart : ℚ) * (10 : ℚ) ^ fcnt + (fpart : ℚ)
    let base : ℚ := sgn * mant / (10 : ℚ) ^ fcnt
    match cs with
    | [] => some base
    | e :: rest =>
      if e = 'e' ∨ e = 'E' then
        let (esgn, rest) : Bool × List Char :=
          match rest with
          | '-' :: r => (true, r)
          | '+' :: r => (false, r)
          | _ => (false, rest)
        let (ev, ecnt) := digitsVal rest 0 0
        if ecnt = 0 ∨ dropDigits rest ≠ [] then none
        else if esgn then some (base / (10 : ℚ) ^ ev)
        else some (base * (10 : ℚ) ^ ev)
      else none

/-! ## Parser (src/unnamed/part_006) -/

/-- token.pos. -/
def tokPos : Tok → Nat
  | .delim _ p => p
  | .str _ p => p
  | .num _ p => p
  | .res _ p => p

/-- token.String. -/
def tokText : Tok → String
  | .delim c _ => String.mk [c]
  | .str s _ => s
  | .num s _ => s
  | .res s _ => s

mutual

/-- Parser.parse on one token (part_006 lines 106-137). -/
def parseVal : Nat → Tok → RSt → Except String (Node × RSt)
  | 0, _, _ => .error "jtree model: parser fuel exhausted"
  | fuel + 1, tok, r =>
    match tok with
    | .str s _ => .ok (.str s, r)
    | .num s p =>
      match numParse s with
      | some q => .ok (.num q, r)
      | none => .error ("jtree: number syntax error at position " ++ toString p)
    | .delim c p =>
      if c = '{' then parseObj fuel r [] [] true
      else if c = '[' then parseArr fuel r [] true
      else .error ("jtree: unexpected delimiter '" ++ String.mk [c] ++
        "' at position " ++ toString p)
    | .res s p =>
      if s = "true" ∨ s = "false" then .ok (.bool (s = "true"), r)
      else if s = "null" then .ok (.null, r)
      else .error ("jtree: undefined keyword '" ++ s ++ "' at position " ++
        toString p)

/-- Parser.parseArray loop (part_006 lines 19-48); more mirrors the flag of
the source loop. -/
def parseArr : Nat → RSt → List Node → Bool → Except String (Node × RSt)
  | 0, _, _, _ => .error "jtree model: parser fuel exhausted"
  | fuel + 1, r, acc, more =>
    match tokenF fuel r with
    | .error e => .error e
    | .ok (tok, r') =>
      if more then
        match tok with
        | .delim ']' _ => .ok (.arr acc, r')
        | _ =>
          match parseVal fuel tok r' with
          | .error e => .error e
          | .ok (n, r'') => parseArr fuel r'' (acc ++ [n]) false
      else
        match tok with
        | .delim ']' _ => .ok (.arr acc, r')
        | .delim ',' _ => parseArr fuel r' acc true
        | _ =>
          .error ("jtree: unexpected token at position " ++
            toString (tokPos tok) ++ ": '" ++ tokText tok ++ "'")

/-- Parser.parseObject loop (part_006 lines 50-104): each parsed pair appends
its key to the key list and assigns the values map. -/
def parseObj : Nat → RSt → List String → List (String × Node) → Bool →
    Except String (Node × RSt)
  | 0, _, _, _, _ => .error "jtree model: parser fuel exhausted"
  | fuel + 1, r, keys, values, more =>
    match tokenF fuel r with
    | .error e => .error e
    | .ok (tok, r') =>
      if more then
        match tok with
        | .delim c p =>
          if c = '}' then .ok (.obj keys values, r')
          else .error ("jtree: unexpected delimiter '" ++ String.mk [c] ++
            "' at position " ++ toString p)
        | .str key _ =>
          match tokenF fuel r' with
          | .error e => .error e
          | .ok (tok2, r2) =>
            match tok2 with
            | .delim ':' _ =>
              match tokenF fuel r2 with
              | .error e => .error e
              | .ok (tok3, r3) =>
                match parseVal fuel tok3 r3 with
                | .error e => .error e
                | .ok (value, r4) =>
                  parseObj fuel r4 (keys ++ [key]) (mapSet values key value) false
            | _ =>
              .error ("jtree: colon expected at position " ++
                toString (tokPos tok2) ++ ": '" ++ tokText tok2 ++ "'")
        | _ =>
          .error ("jtree: object key expected at position " ++
            toString (tokPos tok) ++ ": '" ++ tokText tok ++ "'")
      else
        match tok with
        | .delim '}' _ => .ok (.obj keys values, r')
        | .delim ',' _ => parseObj fuel r' keys values true
        | _ =>
          .error ("jtree: unexpected token at position " ++
            toString (tokPos tok) ++ ": '" ++ tokText tok ++ "'")

end

/-- Parser.Parse: read one token and parse one value (part_006 lines
140-146). -/
def parseJSON (s : String) : Except String Node :=
  match tokenF 1000 (mkRSt s) with
  | .error e => .error e
  | .ok (tok, r) => (parseVal 1000 tok r).map Prod.fst

/-! ## Go type and value model for the decode engine (src/node.go)

The destination universe covers the reflect kinds the decode engine
dispatches on: sized signed/unsigned integers, floats, strings, byte and
generic slices, fixed arrays, pointers, string-keyed maps, structs, and the
interface destinations (the Node interface, the empty interface, and opaque
user interfaces served by the type registry).  big.Int, big.Float and
time.Time destinations (and with them the TextUnmarshaler hook, implemented
in scope only by time.Time) are outside the model; no claim touches them.
Go strings are byte strings; string values are modelled as byte lists. -/

mutual

inductive GoType where
  | intT (w : Nat)
  | uintT (w : Nat)
  | floatT (w : Nat)
  | stringT
  | boolT
  | sliceT (elem : GoType)
  | arrayT (n : Nat) (elem : GoType)
  | ptrT (elem : GoType)
  | mapT (val : GoType)
  | structT (name : String) (fields : GoFields)
  | ifaceNodeT
  | ifaceEmptyT
  | ifaceUserT (name : String)

inductive GoFields where
  | nil
  | cons (f : GoField) (fs : GoFields)

/-- One declared struct field: declared name, raw json tag value, the
Anonymous and IsExported flags, and the field type. -/
inductive GoField where
  | mk (fname : String) (tag : String) (anon : Bool) (exported : Bool)
      (ftype : GoType)

end

mutual

/-- Structural equality on GoType, modelling reflect.Type identity (used by
the pointer-cycle check of collectFields). -/
def beqGoType : GoType → GoType → Bool
  | .intT w, .intT w' => w = w'
  | .uintT w, .uintT w' => w = w'
  | .floatT w, .floatT w' => w = w'
  | .stringT, .stringT => true
  | .boolT, .boolT => true
  | .sliceT e, .sliceT e' => beqGoType e e'
  | .arrayT n e, .arrayT n' e' => n = n' ∧ beqGoType e e'
  | .ptrT e, .ptrT e' => beqGoType e e'
  | .mapT v, .mapT v' => beqGoType v v'
  | .structT n fs, .structT n' fs' => n = n' ∧ beqGoFields fs fs'
  | .ifaceNodeT, .ifaceNodeT => true
  | .ifaceEmptyT, .ifaceEmptyT => true
  | .ifaceUserT n, .ifaceUserT n' => n = n'
  | _, _ => false

def beqGoFields : GoFields → GoFields → Bool
  | .nil, .nil => true
  | .cons f fs, .cons f' fs' => beqGoField f f' ∧ beqGoFields fs fs'
  | _, _ => false

def beqGoField : GoField → GoField → Bool
  | .mk n t a e ft, .mk n' t' a' e' ft' =>
    n = n' ∧ t = t' ∧ a = a' ∧ e = e' ∧ beqGoType ft ft'

end

/-- Field accessors. -/
def GoField.fname : GoField → String
  | .mk n _ _ _ _ => n

/-- Raw json tag of the field. -/
def GoField.tag : GoField → String
  | .mk _ t _ _ _ => t

/-- Anonymous flag. -/
def GoField.anon : GoField → Bool
  | .mk _ _ a _ _ => a

/-- IsExported flag. -/
def GoField.exported : GoField → Bool
  | .mk _ _ _ e _ => e

/-- Field type. -/
def GoField.ftype : GoField → GoType
  | .mk _ _ _ _ t => t

/-- List view of a GoFields spine. -/
def GoFields.toList : GoFields → List GoField
  | .nil => []
  | .cons f fs => f :: fs.toList

/-- The i-th declared field, reflect's t.Field(i). -/
def fieldAt : GoFields → Nat → Option GoField
  | .nil, _ => none
  | .cons f _, 0 => some f
  | .cons _ fs, i + 1 => fieldAt fs i

mutual

/-- Go value model matching GoType; pointers and interfaces carry an optional
payload (none is nil). -/
inductive GoVal where
  | intV (i : Int)
  | uintV (n : Nat)
  | floatV (q : ℚ)
  | stringV (bytes : List Nat)
  | boolV (b : Bool)
  | sliceV (elems : List GoVal)
  | arrayV (elems : List GoVal)
  | ptrV (v : Option GoVal)
  | mapV (entries : List (String × GoVal))
  | structV (fields : List GoVal)
  | ifaceNodeV (n : Option Node)
  | ifaceV (v : Option GoVal)

end

mutual

/-- reflect.Zero of a destination type. -/
def zeroVal : GoType → GoVal
  | .intT _ => .intV 0
  | .uintT _ => .uintV 0
  | .floatT _ => .floatV 0
  | .stringT => .stringV []
  | .boolT => .boolV false
  | .sliceT _ => .sliceV []
  | .arrayT n e => .arrayV (List.replicate n (zeroVal e))
  | .ptrT _ => .ptrV none
  | .mapT _ => .mapV []
  | .structT _ fs => .structV (zeroFields fs)
  | .ifaceNodeT => .ifaceNodeV none
  | .ifaceEmptyT => .ifaceV none
  | .ifaceUserT _ => .ifaceV none

def zeroFields : GoFields → List GoVal
  | .nil => []
  | .cons (.mk _ _ _ _ t) fs => zeroVal t :: zeroFields fs

end

/-! ## Byte encodings (src/encoding.go) -/

/-- UTF-8 encoding of one scalar, modelling Go's byte view of a string. -/
def utf8EncodeChar (c : Char) : List Nat :=
  let v := c.toNat
  if v < 0x80 then [v]
  else if v < 0x800 then [0xC0 + v / 0x40, 0x80 + v % 0x40]
  else if v < 0x10000 then
    [0xE0 + v / 0x1000, 0x80 + v / 0x40 % 0x40, 0x80 + v % 0x40]
  else
    [0xF0 + v / 0x40000, 0x80 + v / 0x1000 % 0x40, 0x80 + v / 0x40 % 0x40,
      0x80 + v % 0x40]

/-- Byte view of a Go string ([]byte conversion). -/
def utf8Bytes (s : String) : List Nat :=
  (s.toList.map utf8EncodeChar).flatten

/-- An Encoding (interface of encoding.go): a byte-to-text transform and its
fallible inverse. -/
structure Enc where
  encode : List Nat → List Nat
  decode : List Nat → Except String (List Nat)

/-- Value of a standard base64 alphabet byte. -/
def b64Val (c : Nat) : Option Nat :=
  if 65 ≤ c ∧ c ≤ 90 then some (c - 65)
  else if 97 ≤ c ∧ c ≤ 122 then some (c - 97 + 26)
  else if 48 ≤ c ∧ c ≤ 57 then some (c - 48 + 52)
  else if c = 43 then some 62
  else if c = 47 then some 63
  else none

/-- Standard base64 alphabet character for a 6-bit value. -/
def b64Char (v : Nat) : Nat :=
  if v < 26 then 65 + v
  else if v < 52 then 97 + (v - 26)
  else if v < 62 then 48 + (v - 52)
  else if v = 62 then 43
  else 47

/-- base64.StdEncoding.Decode model: strict four-byte quantums over the
standard alphabet with mandatory trailing padding; carriage returns and
newlines are skipped as in Go; the reported byte offset counts the cleaned
input. -/
def b64DecodeAux : List Nat → Nat → Except String (List Nat)
  | [], _ => .ok []
  | [c1, c2, 61, 61], idx =>
    match b64Val c1, b64Val c2 with
    | some v1, some v2 => .ok [v1 * 4 + v2 / 16]
    | _, _ => .error ("illegal base64 data at input byte " ++ toString idx)
  | [c1, c2, c3, 61], idx =>
    match b64Val c1, b64Val c2, b64Val c3 with
    | some v1, some v2, some v3 =>
      .ok [v1 * 4 + v2 / 16, v2 % 16 * 16 + v3 / 4]
    | _, _, _ => .error ("illegal base64 data at input byte " ++ toString idx)
  | c1 :: c2 :: c3 :: c4 :: rest, idx =>
    match b64Val c1, b64Val c2, b64Val c3, b64Val c4 with
    | some v1, some v2, some v3, some v4 =>
      (b64DecodeAux rest (idx + 4)).map fun tl =>
        (v1 * 4 + v2 / 16) :: (v2 % 16 * 16 + v3 / 4) :: (v3 % 4 * 64 + v4) :: tl
    | _, _, _, _ => .error ("illegal base64 data at input byte " ++ toString idx)
  | _, idx => .error ("illegal base64 data at input byte " ++ toString idx)

/-- base64Encoding.Decode (encoding.go lines 22-26). -/
def b64Decode (l : List Nat) : Except String (List Nat) :=
  b64DecodeAux (l.filter fun c => c ≠ 10 ∧ c ≠ 13) 0

/-- base64Encoding.Encode (encoding.go lines 16-20). -/
def b64Encode : List Nat → List Nat
  | [] => []
  | [b1] =>
    [b64Char (b1 / 4), b64Char (b1 % 4 * 16), 61, 61]
  | [b1, b2] =>
    [b64Char (b1 / 4), b64Char (b1 % 4 * 16 + b2 / 16), b64Char (b2 % 16 * 4), 61]
  | b1 :: b2 :: b3 :: rest =>
    b64Char (b1 / 4) :: b64Char (b1 % 4 * 16 + b2 / 16) ::
      b64Char (b2 % 16 * 4 + b3 / 64) :: b64Char (b3 % 64) :: b64Encode rest

/-- The Base64 scheme value. -/
def base64Enc : Enc := ⟨b64Encode, b64Decode⟩

/-- Lowercase hex digit for a 4-bit value. -/
def hexChar (v : Nat) : Nat := if v < 10 then 48 + v else 97 + (v - 10)

/-- hexEncoding.Decode (encoding.go lines 36-40): pairs of hex digits. -/
def hexDecode : List Nat → Except String (List Nat)
  | [] => .ok []
  | [_] => .error "encoding/hex: odd length hex string"
  | c1 :: c2 :: rest =>
    match hexVal (Char.ofNat c1), hexVal (Char.ofNat c2) with
    | some v1, some v2 => (hexDecode rest).map fun tl => (v1 * 16 + v2) :: tl
    | _, _ => .error "encoding/hex: invalid byte"

/-- hexEncoding.Encode (encoding.go lines 30-34). -/
def hexEncode : List Nat → List Nat
  | [] => []
  | b :: rest => hexChar (b / 16) :: hexChar (b % 16) :: hexEncode rest

/-- The Hex scheme value. -/
def hexEnc : Enc := ⟨hexEncode, hexDecode⟩

/-! ## Decode options (node.go lines 14-83) -/

/-- Global (context) options: globalOptions in node.go.  The type registry is
modelled as a partial map from interface types to constructors; a constructor
is modelled as consuming the node directly (the option list a Go constructor
receives carries no further decode-relevant data in this model).  The
encoding registry maps scheme names to encodings. -/
structure GOpt where
  noUnknown : Bool := false
  typeReg : Option (GoType → Option (Node → Except String GoVal)) := none
  encReg : Option (String → Option Enc) := none

/-- Per-call options: decoderOptions in node.go. -/
structure DOpt where
  str : Bool := false
  enc : Option Enc := none
  global : Option GOpt := none

/-- Option is a function updating the option record. -/
def OptFn := DOpt → DOpt

/-- decoderOptions.apply: fold the option functions left to right. -/
def applyOpts (ops : List OptFn) (o : DOpt) : DOpt :=
  ops.foldl (fun o f => f o) o

/-- decoderOptions.g: the global record, empty when unset. -/
def getGlobal (o : DOpt) : GOpt := o.global.getD {}

/-- Default encoding registry (registry.go init: base64 and hex). -/
def defaultEncReg (s : String) : Option Enc :=
  if s = "base64" then some base64Enc
  else if s = "hex" then some hexEnc
  else none

/-- globalOptions.encodings: the explicit registry or the default one. -/
def encodingsOf (g : GOpt) : String → Option Enc :=
  g.encReg.getD defaultEncReg

/-- globalOptions.types: the explicit registry or the (empty) default one. -/
def typesOf (g : GOpt) : GoType → Option (Node → Except String GoVal) :=
  g.typeReg.getD fun _ => none

/-- OpString. -/
def OpString : OptFn := fun o => { o with str := true }

/-- OpEncoding. -/
def OpEncoding (e : Enc) : OptFn := fun o => { o with enc := some e }

/-- OpDisallowUnknownFields. -/
def OpDisallowUnknownFields : OptFn := fun o =>
  { o with global := some { getGlobal o with noUnknown := true } }

/-- opG: pass the caller's global record to a nested Decode call. -/
def opG (src : DOpt) : OptFn := fun o => { o with global := src.global }

/-! ## Struct introspection (src/utils.go collectFields) -/

/-- Resolved field of the flattened table: external name, access path and the
tag option strings (StructField in utils.go, restricted to what object decode
reads). -/
structure SField where
  name : String
  index : List Nat
  opts : List String
deriving Repr

/-- Lookup in the name-to-field Go map model. -/
def lookupS : List (String × SField) → String → Option SField
  | [], _ => none
  | (k', v) :: rest, k => if k' = k then some v else lookupS rest k

/-- Assignment in the name-to-field Go map model. -/
def mapSetS : List (String × SField) → String → SField → List (String × SField)
  | [], k, v => [(k, v)]
  | (k', v') :: rest, k, v =>
    if k' = k then (k, v) :: rest else (k', v') :: mapSetS rest k v

/-- Split a character list at commas (strings.Split(tag, ",")), written as a
structural recursion so that it evaluates inside the kernel. -/
def splitCommaAux : List Char → List Char → List String
  | [], cur => [String.mk cur.reverse]
  | c :: rest, cur =>
    if c = ',' then String.mk cur.reverse :: splitCommaAux rest []
    else splitCommaAux rest (c :: cur)

/-- parseTag (utils.go lines 79-82): split at commas into name and options. -/
def parseTag (tag : String) : String × List String :=
  match splitCommaAux tag.toList [] with
  | [] => ("", [])
  | n :: rest => (n, rest)

/-- Membership of a type in the visited-pointer list (the loop-detection scan
of collectFields). -/
def ptrMem (ptr : List GoType) (t : GoType) : Bool :=
  ptr.any fun t' => beqGoType t' t

/-- Kind test: struct. -/
def isStructKind : GoType → Bool
  | .structT _ _ => true
  | _ => false

/-- Kind test: pointer to struct. -/
def isPtrStructKind : GoType → Bool
  | .ptrT (.structT _ _) => true
  | _ => false

mutual

/-- collectFields (utils.go lines 21-72): depth-first traversal emitting the
flattened field table.  The position argument i models the loop index, index
the access-path prefix, ptr the visited pointer types and out the
name-to-field map threaded through the traversal.  Returns the emitted list
and the final map.  Note the duplicate-name guard compares the length of the
stored field's full path with the length of the candidate's local index
(always one), exactly as the source does. -/
def collectFieldsAux : GoFields → Nat → List Nat → List GoType →
    List (String × SField) → List SField × List (String × SField)
  | .nil, _, _, _, out => ([], out)
  | .cons (.mk fname tag anon exported ftype) fs, i, index, ptr, out =>
    let (name, opt) := parseTag tag
    if name = "-" then
      collectFieldsAux fs (i + 1) index ptr out
    else if name = "" ∧ anon ∧ (isStructKind ftype ∨ isPtrStructKind ftype) then
      match ftype with
      | .ptrT inner =>
        if ¬ exported then collectFieldsAux fs (i + 1) index ptr out
        else if ptrMem ptr (.ptrT inner) then collectFieldsAux fs (i + 1) index ptr out
        else
          let (l, out') :=
            collectDive inner 0 (index ++ [i]) (ptr ++ [.ptrT inner]) out
          let (l2, out'') := collectFieldsAux fs (i + 1) index ptr out'
          (l ++ l2, out'')
      | ft =>
        let (l, out') := collectDive ft 0 (index ++ [i]) ptr out
        let (l2, out'') := collectFieldsAux fs (i + 1) index ptr out'
        (l ++ l2, out'')
    else if ¬ exported then
      collectFieldsAux fs (i + 1) index ptr out
    else
      let name' := if name = "" then fname else name
      let skip :=
        match lookupS out name' with
        | some prev => decide (prev.index.length ≤ ([i] : List Nat).length)
        | none => false
      if skip then collectFieldsAux fs (i + 1) index ptr out
      else
        let field : SField := ⟨name', index ++ [i], opt⟩
        let (l2, out'') := collectFieldsAux fs (i + 1) index ptr (mapSetS out name' field)
        (field :: l2, out'')

/-- Recurse into the fields of an embedded struct type (the dive call). -/
def collectDive : GoType → Nat → List Nat → List GoType →
    List (String × SField) → List SField × List (String × SField)
  | .structT _ fs, _, index, ptr, out => collectFieldsAux fs 0 index ptr out
  | _, _, _, _, out => ([], out)

end

/-- VisibleFields (utils.go lines 74-77). -/
def visibleFields (fs : GoFields) : List SField :=
  (collectFieldsAux fs 0 [] [] []).1

/-- The flattened name-to-field table consumed by object decode. -/
def fieldTable (fs : GoFields) : List (String × SField) :=
  (collectFieldsAux fs 0 [] [] []).2

/-! ## Scalar decode rules (node.go per-kind decode closures) -/

/-- Rendering of a destination type for error messages (reflect's %v; struct
and user-interface types print their recorded name). -/
def typeStr : GoType → String
  | .intT w => "int" ++ toString w
  | .uintT w => "uint" ++ toString w
  | .floatT w => "float" ++ toString w
  | .stringT => "string"
  | .boolT => "bool"
  | .sliceT e => "[]" ++ typeStr e
  | .arrayT n e => "[" ++ toString n ++ "]" ++ typeStr e
  | .ptrT e => "*" ++ typeStr e
  | .mapT v => "map[string]" ++ typeStr v
  | .structT n _ => n
  | .ifaceNodeT => "jtree.Node"
  | .ifaceEmptyT => "interface \x7b\x7d"
  | .ifaceUserT n => n

/-- Truncation of a rational toward zero (big.Float.Int64 before clamping). -/
def ratTrunc (q : ℚ) : Int :=
  if 0 ≤ q then Rat.floor q else -Rat.floor (-q)

/-- Saturation of big.Float.Int64: values outside the int64 range are clamped
to math.MinInt64 / math.MaxInt64. -/
def clampI64 (i : Int) : Int :=
  max (-(2 ^ 63)) (min (2 ^ 63 - 1) i)

/-- Saturation of big.Float.Uint64: negative values become 0, values above
math.MaxUint64 become math.MaxUint64. -/
def clampU64 (i : Int) : Int :=
  max 0 (min (2 ^ 64 - 1) i)

/-- reflect.Value.SetInt into a kind of width w: two's-complement wrap. -/
def wrapSigned (i : Int) (w : Nat) : Int :=
  let m := Int.emod i (2 ^ w)
  if 2 ^ (w - 1) ≤ m then m - 2 ^ w else m

/-- reflect.Value.SetUint into a kind of width w: wrap modulo 2 to the w. -/
def wrapUnsigned (n : Nat) (w : Nat) : Nat := n % 2 ^ w

/-- Model of big.Float.String for the number-to-string rule: exact decimal
digits for integral values; a non-integral value is rendered as a fraction
(an approximation of the shortest-float rendering of the source — no claim
depends on a non-integral or huge value reaching this rule). -/
def numToStrBytes (q : ℚ) : List Nat :=
  if q.den = 1 then utf8Bytes (toString q.num)
  else utf8Bytes (toString q.num ++ "/" ++ toString q.den)

/-- Decimal bytes of a boolean (strconv.FormatBool). -/
def boolBytes (b : Bool) : List Nat :=
  utf8Bytes (if b then "true" else "false")

/-- strconv.ParseInt(s, 10, 64): optional sign, decimal digits, 64-bit range
check. -/
def goParseInt (s : String) : Except String Int :=
  let cs := s.toList
  let (neg, ds) : Bool × List Char :=
    match cs with
    | '-' :: r => (true, r)
    | '+' :: r => (false, r)
    | _ => (false, cs)
  if ds = [] ∨ dropDigits ds ≠ [] then
    .error ("strconv.ParseInt: parsing \"" ++ s ++ "\": invalid syntax")
  else
    let i : Int := if neg then -((digitsVal ds 0 0).1 : Int) else (digitsVal ds 0 0).1
    if i < -(2 ^ 63) ∨ (2 ^ 63 - 1 : Int) < i then
      .error ("strconv.ParseInt: parsing \"" ++ s ++ "\": value out of range")
    else .ok i

/-- strconv.ParseUint(s, 10, 64): decimal digits, no sign, 64-bit range
check. -/
def goParseUint (s : String) : Except String Nat :=
  let ds := s.toList
  if ds = [] ∨ dropDigits ds ≠ [] then
    .error ("strconv.ParseUint: parsing \"" ++ s ++ "\": invalid syntax")
  else
    let n := (digitsVal ds 0 0).1
    if (2 ^ 64 - 1 : Nat) < n then
      .error ("strconv.ParseUint: parsing \"" ++ s ++ "\": value out of range")
    else .ok n

/-- strconv.ParseBool. -/
def goParseBool (s : String) : Except String Bool :=
  if s = "1" ∨ s = "t" ∨ s = "T" ∨ s = "TRUE" ∨ s = "true" ∨ s = "True" then .ok true
  else if s = "0" ∨ s = "f" ∨ s = "F" ∨ s = "FALSE" ∨ s = "false" ∨ s = "False" then .ok false
  else .error ("strconv.ParseBool: parsing \"" ++ s ++ "\": invalid syntax")

/-- Num.Decode per-kind rules (node.go lines 105-149, minus the big.Int,
big.Float and time.Time branches which are outside the modelled type
universe): integer kinds truncate via Int64/Uint64 then SetInt/SetUint,
floats convert, strings render, booleans compare with zero. -/
def decodeNum (q : ℚ) (t : GoType) : Except String GoVal :=
  match t with
  | .intT w => .ok (.intV (wrapSigned (clampI64 (ratTrunc q)) w))
  | .uintT w => .ok (.uintV (wrapUnsigned (clampU64 (ratTrunc q)).toNat w))
  | .floatT _ => .ok (.floatV q)
  | .stringT => .ok (.stringV (numToStrBytes q))
  | .boolT => .ok (.boolV (decide (q ≠ 0)))
  | _ => .error ("jtree: can't convert number to " ++ typeStr t)

/-- Shared string/byte-slice branch of String.Decode (node.go lines 169-187):
choose the encoding (the explicit option, else Base64 for a byte destination
outside string mode), decode through it or copy the raw bytes, then convert
to the destination. -/
def strEncBranch (s : String) (isStr : Bool) (opt : DOpt) : Except String GoVal :=
  let enc : Option Enc :=
    match opt.enc with
    | some e => some e
    | none => if ¬ isStr ∧ ¬ opt.str then some base64Enc else none
  match enc with
  | some e =>
    match e.decode (utf8Bytes s) with
    | .error err => .error ("jtree: " ++ err)
    | .ok buf => .ok (if isStr then .stringV buf else .sliceV (buf.map .uintV))
  | none =>
    .ok (if isStr then .stringV (utf8Bytes s) else .sliceV ((utf8Bytes s).map .uintV))

/-- String.Decode per-kind rules (node.go lines 158-237, minus the
TextUnmarshaler, big.Int and big.Float branches which are outside the
modelled type universe): string and byte-slice destinations go through the
encoding branch; any other destination requires string mode and parses
integers or booleans from the text. -/
def decodeStrNode (s : String) (t : GoType) (opt : DOpt) : Except String GoVal :=
  match t with
  | .stringT => strEncBranch s true opt
  | .sliceT (.uintT 8) => strEncBranch s false opt
  | t =>
    if ¬ opt.str then .error ("jtree: can't convert string to " ++ typeStr t)
    else
      match t with
      | .intT w =>
        match goParseInt s with
        | .error e => .error ("jtree: " ++ e)
        | .ok i => .ok (.intV (wrapSigned i w))
      | .uintT w =>
        match goParseUint s with
        | .error e => .error ("jtree: " ++ e)
        | .ok n => .ok (.uintV (wrapUnsigned n w))
      | .boolT =>
        match goParseBool s with
        | .error e => .error ("jtree: " ++ e)
        | .ok b => .ok (.boolV b)
      | t => .error ("jtree: can't convert string to " ++ typeStr t)

/-- Bool.Decode per-kind rules (node.go lines 395-419): boolean passthrough,
text rendering for strings, 0/1 for numeric destinations, error where the
0/1 integer is not convertible. -/
def decodeBool (b : Bool) (t : GoType) : Except String GoVal :=
  match t with
  | .boolT => .ok (.boolV b)
  | .stringT => .ok (.stringV (boolBytes b))
  | .intT _ => .ok (.intV (if b then 1 else 0))
  | .uintT _ => .ok (.uintV (if b then 1 else 0))
  | .floatT _ => .ok (.floatV (if b then 1 else 0))
  | _ => .error ("jtree: can't convert boolean to " ++ typeStr t)

/-- Default destination type synthesized for an untyped interface destination
from the node kind (node.go lines 490-505). -/
def defaultTypeFor : Node → GoType
  | .num _ => .floatT 64
  | .str _ => .stringT
  | .obj _ _ => .mapT .ifaceEmptyT
  | .arr _ => .sliceT .ifaceEmptyT
  | .bool _ => .boolT
  | .null => .boolT

/-- The pointer-indirection loop of decodeNode (node.go lines 466-472):
resolve nested pointers, allocating a zero value at each nil level, and
return the resolved type, the value stored there and the rebuilding function
that writes an updated value back through the pointers. -/
def deref : GoType → GoVal → GoType × GoVal × (GoVal → GoVal)
  | .ptrT te, cur =>
    let inner :=
      match cur with
      | .ptrV (some v) => v
      | _ => zeroVal te
    let (t', v', wrapF) := deref te inner
    (t', v', fun v => .ptrV (some (wrapF v)))
  | t, cur => (t, cur, id)

/-- parseFieldOptions (node.go lines 524-534): the tag option "string" turns
into OpString, a registered encoding name into OpEncoding. -/
def parseFieldOptionsM (tags : List String) (opt : DOpt) : List OptFn :=
  match tags with
  | [] => []
  | s :: rest =>
    (if s = "string" then [OpString]
     else
       match encodingsOf (getGlobal opt) s with
       | some e => [OpEncoding e]
       | none => []) ++ parseFieldOptionsM rest opt

/-- Go-map assignment for decoded map entries. -/
def mapSetGV : List (String × GoVal) → String → GoVal → List (String × GoVal)
  | [], k, v => [(k, v)]
  | (k', v') :: rest, k, v =>
    if k' = k then (k, v) :: rest else (k', v') :: mapSetGV rest k v

/-! ## The decode dispatcher (node.go decodeNode and the recursive per-kind
rules).  All nested Decode calls consume one unit of fuel. -/

mutual

/-- decodeNode after the pointer checks (node.go lines 450-517), acting on
the slot the destination pointer refers to: the Null short circuit, the
pointer-indirection loop, the Node-interface and user-interface handling,
and dispatch to the concrete per-kind rules.  Fuel is consumed at every step
into a mutually recursive helper; it only bounds the recursion depth of the
model and theorems quantify over it. -/
def decodeVal (fuel : Nat) (node : Node) (t : GoType) (cur : GoVal)
    (opt : DOpt) : Except String GoVal :=
  match node with
  | .null => .ok (zeroVal t)
  | _ =>
    match fuel with
    | 0 => .error "jtree model: recursion limit"
    | fuel' + 1 =>
      let (t', cur', wrapF) := deref t cur
      match t' with
      | .ifaceNodeT => .ok (wrapF (.ifaceNodeV (some node)))
      | .ifaceEmptyT => (decodeIface fuel' node .ifaceEmptyT opt).map wrapF
      | .ifaceUserT nm => (decodeIface fuel' node (.ifaceUserT nm) opt).map wrapF
      | _ => (decodeConc fuel' node t' cur' opt).map wrapF

/-- Interface destination other than Node (node.go lines 482-514): consult
the type registry, else synthesize the default type for the node kind,
decode into a zero value of it and convert. -/
def decodeIface (fuel : Nat) (node : Node) (t : GoType) (opt : DOpt) :
    Except String GoVal :=
  match typesOf (getGlobal opt) t with
  | some ctor =>
    match ctor node with
    | .error e => .error ("jtree: " ++ e)
    | .ok v => .ok (.ifaceV (some v))
  | none =>
    match fuel with
    | 0 => .error "jtree model: recursion limit"
    | fuel' + 1 =>
      let dt := defaultTypeFor node
      match decodeConc fuel' node dt (zeroVal dt) opt with
      | .error e => .error e
      | .ok v =>
        match t with
        | .ifaceEmptyT => .ok (.ifaceV (some v))
        | t => .error ("jtree: can't convert " ++ typeStr dt ++ " to " ++ typeStr t)

/-- Concrete-destination dispatch: the per-node-kind decode closures of
node.go (Num, String, Bool scalar rules; Array lines 360-386; Object lines
294-351). -/
def decodeConc (fuel : Nat) (node : Node) (t : GoType) (cur : GoVal)
    (opt : DOpt) : Except String GoVal :=
  match node with
  | .null => .ok (zeroVal t)
  | .num q => decodeNum q t
  | .str s => decodeStrNode s t opt
  | .bool b => decodeBool b t
  | .arr elems =>
    match t with
    | .sliceT et =>
      match fuel with
      | 0 => .error "jtree model: recursion limit"
      | fuel' + 1 =>
        (decodeElems fuel' elems (List.replicate elems.length (zeroVal et)) et
          { global := opt.global }).map .sliceV
    | .arrayT _ et =>
      match fuel with
      | 0 => .error "jtree model: recursion limit"
      | fuel' + 1 =>
        let slots :=
          match cur with
          | .arrayV l => l
          | _ => []
        (decodeElems fuel' elems slots et { global := opt.global }).map .arrayV
    | t => .error ("jtree: slice or array expected: " ++ typeStr t)
  | .obj keys values =>
    match t with
    | .structT nm fs =>
      match fuel with
      | 0 => .error "jtree model: recursion limit"
      | fuel' + 1 =>
        let vals :=
          match cur with
          | .structV vs => vs
          | _ => zeroFields fs
        (decodeStructLoop fuel' keys values nm fs vals (fieldTable fs) opt).map .structV
    | .mapT vt =>
      match fuel with
      | 0 => .error "jtree model: recursion limit"
      | fuel' + 1 => (decodeMapLoop fuel' keys values vt [] opt).map .mapV
    | t => .error ("jtree: struct or map expected: " ++ typeStr t)

/-- Element loop of Array.Decode: decode source elements in order into the
destination slots, stopping at the end of either list; remaining destination
slots keep their current contents, remaining source elements are ignored. -/
def decodeElems (fuel : Nat) (elems : List Node) (slots : List GoVal)
    (et : GoType) (copt : DOpt) : Except String (List GoVal) :=
  match elems, slots with
  | [], slots => .ok slots
  | _ :: _, [] => .ok []
  | e :: es, s :: ss =>
    match fuel with
    | 0 => .error "jtree model: recursion limit"
    | fuel' + 1 =>
      match decodeVal fuel' e et s copt with
      | .error err => .error err
      | .ok v => (decodeElems fuel' es ss et copt).map fun vs => v :: vs

/-- Map branch loop of Object.Decode: decode each field value into a fresh
zero of the map value type with the ambient context and accumulate into a
fresh map. -/
def decodeMapLoop (fuel : Nat) (keys : List String)
    (values : List (String × Node)) (vt : GoType)
    (acc : List (String × GoVal)) (opt : DOpt) :
    Except String (List (String × GoVal)) :=
  match keys with
  | [] => .ok acc
  | k :: ks =>
    match fuel with
    | 0 => .error "jtree model: recursion limit"
    | fuel' + 1 =>
      match mapGet values k with
      | none => .error "jtree model: object value missing"
      | some elem =>
        match decodeVal fuel' elem vt (zeroVal vt) { global := opt.global } with
        | .error e => .error e
        | .ok v => decodeMapLoop fuel' ks values vt (mapSetGV acc k v) opt

/-- Struct branch loop of Object.Decode: look each source key up in the
flattened field table, fail or skip unmatched keys according to the strict
flag, and decode matched values through the field's access path with the
field's parsed options plus the ambient context. -/
def decodeStructLoop (fuel : Nat) (keys : List String)
    (values : List (String × Node)) (nm : String) (fs : GoFields)
    (vals : List GoVal) (fields : List (String × SField)) (opt : DOpt) :
    Except String (List GoVal) :=
  match keys with
  | [] => .ok vals
  | k :: ks =>
    match fuel with
    | 0 => .error "jtree model: recursion limit"
    | fuel' + 1 =>
      match lookupS fields k with
      | none =>
        if (getGlobal opt).noUnknown then
          .error ("jtree: undefined field '" ++ k ++ "': " ++ nm)
        else decodeStructLoop fuel' ks values nm fs vals fields opt
      | some field =>
        match mapGet values k with
        | none => .error "jtree model: object value missing"
        | some elem =>
          let copt := applyOpts (opG opt :: parseFieldOptionsM field.opts opt) {}
          match setPath fuel' fs vals field.index elem copt with
          | .error e => .error e
          | .ok vals' => decodeStructLoop fuel' ks values nm fs vals' fields opt

/-- Access-path navigation of the struct branch (node.go lines 311-321):
walk the field index list, allocating nil anonymous pointer fields on the
way, and decode the node into the final slot. -/
def setPath (fuel : Nat) (fs : GoFields) (vals : List GoVal)
    (path : List Nat) (elem : Node) (copt : DOpt) :
    Except String (List GoVal) :=
  match path with
  | [] => .error "jtree model: empty field index"
  | [fi] =>
    match fuel with
    | 0 => .error "jtree model: recursion limit"
    | fuel' + 1 =>
      match fieldAt fs fi with
      | none => .error "jtree model: field index out of range"
      | some f =>
        match decodeVal fuel' elem f.ftype (vals.getD fi (zeroVal f.ftype)) copt with
        | .error e => .error e
        | .ok v => .ok (vals.set fi v)
  | fi :: fi2 :: rest =>
    match fuel with
    | 0 => .error "jtree model: recursion limit"
    | fuel' + 1 =>
      match fieldAt fs fi with
      | none => .error "jtree model: field index out of range"
      | some f =>
        match f.ftype with
        | .structT _ fs' =>
          match vals.getD fi (zeroVal f.ftype) with
          | .structV iv =>
            (setPath fuel' fs' iv (fi2 :: rest) elem copt).map fun iv' =>
              vals.set fi (.structV iv')
          | _ => .error "jtree model: malformed struct value"
        | .ptrT (.structT nm' fs') =>
          let inner :=
            match vals.getD fi (zeroVal f.ftype) with
            | .ptrV (some v) => v
            | _ => zeroVal (.structT nm' fs')
          match inner with
          | .structV iv =>
            (setPath fuel' fs' iv (fi2 :: rest) elem copt).map fun iv' =>
              vals.set fi (.ptrV (some (.structV iv')))
          | _ => .error "jtree model: malformed struct value"
        | _ => .error "jtree model: bad embedded field path"

end

/-- Destination of a Decode call: a non-nil pointer to a slot of a given
type holding a current value, a nil pointer, or a non-pointer argument. -/
inductive Dst where
  | valid (t : GoType) (cur : GoVal)
  | nilPtr
  | nonPtr

/-- decodeNode (node.go lines 450-517): the argument checks, then the work on
the pointed-to slot; the result is the new contents of the slot. -/
def jtreeDecode (fuel : Nat) (node : Node) (dst : Dst) (ops : List OptFn) :
    Except String GoVal :=
  match dst with
  | .nonPtr => .error "jtree: pointer expected"
  | .nilPtr => .error "jtree: nil pointer"
  | .valid t cur => decodeVal fuel node t cur (applyOpts ops {})

/-! ## Claim theorems -/

/-- C1: for every non-nil pointer destination of any type and any option
list, decoding the Null node resets the slot to the zero value of its type
(nil for pointer and interface destinations, since zeroVal yields the nil
payload there) and returns success, regardless of the slot's current
contents; the short circuit precedes all other decode logic, including the
fuel-bounded recursive machinery. -/
theorem c1_null_decode_zeroes (fuel : Nat) (t : GoType) (cur : GoVal)
    (ops : List OptFn) :
    jtreeDecode fuel .null (.valid t cur) ops = .ok (zeroVal t) := by
  cases fuel <;> rfl

/-- C4: tokenizing the string literal with adjacent high and low surrogate
escapes uD834 uDD1E yields a string token whose text is exactly the single
scalar U+1D11E, both at the reader.string level and at the token level. -/
theorem c4_surrogate_pair_combines :
    strLit "\\uD834\\uDD1E\"".toList = .ok (String.mk [Char.ofNat 0x1D11E]) ∧
    firstTok "\"\\uD834\\uDD1E\"" = .ok (.str (String.mk [Char.ofNat 0x1D11E]) 0) :=
  ⟨rfl, rfl⟩

/-- C3 counterexample: a high-surrogate escape not followed by a low
surrogate, and a lone low-surrogate escape, tokenize successfully (to text
containing U+FFFD) instead of failing with an invalid-surrogate-pair
error. -/
theorem c3_counterexample_no_surrogate_error :
    strLit "\\uD800x\"".toList = .ok "\uFFFDx" ∧
    strLit "\\uDC00\"".toList = .ok "\uFFFD" :=
  ⟨rfl, rfl⟩

/-- C3 amended: tokenizing a string literal with an unpaired high surrogate
escape, a lone low surrogate escape, or a high surrogate followed by another
high surrogate does not fail: the scan accumulates the UTF-16 units without
validation and the final UTF-16 decoding replaces every surrogate unit that
is not part of a valid high-low pair with U+FFFD in the token text. -/
theorem c3_amended_surrogates_replaced :
    firstTok "\"\\uD800x\"" = .ok (.str "\uFFFDx" 0) ∧
    firstTok "\"\\uDC00\"" = .ok (.str "\uFFFD" 0) ∧
    firstTok "\"\\uD834\\uD834\\uDD1E\"" =
      .ok (.str ("\uFFFD" ++ String.mk [Char.ofNat 0x1D11E]) 0) :=
  ⟨rfl, rfl, rfl⟩

/-- C7: a trailing comma before a closing bracket or brace parses to the same
AST as the text without it, and empty arrays and objects (closing delimiter
immediately after the opening one) are accepted; the sample texts of the
specification parse to the stated structures. -/
theorem c7_trailing_comma_tolerance :
    parseJSON "[1,2,]" = parseJSON "[1,2]" ∧
    parseJSON "\x7b\"a\":1,\x7d" = parseJSON "\x7b\"a\":1\x7d" ∧
    (parseJSON "[1,2,]").isOk = true ∧
    (parseJSON "\x7b\"a\":1,\x7d").isOk = true ∧
    parseJSON "[\"x\",\"y\",]" = .ok (.arr [.str "x", .str "y"]) ∧
    parseJSON "\x7b\"a\":\"x\",\x7d" = .ok (.obj ["a"] [("a", .str "x")]) ∧
    parseJSON "[]" = .ok (.arr []) ∧
    parseJSON "\x7b\x7d" = .ok (.obj [] []) :=
  ⟨rfl, rfl, rfl, rfl, rfl, rfl, rfl, rfl⟩

/-- mapGet after mapSet: the assigned key reads back the assigned value and
other keys are unchanged. -/
theorem mapGet_mapSet (m : List (String × Node)) (k : String) (v : Node)
    (q : String) :
    mapGet (mapSet m k v) q = if k = q then some v else mapGet m q := by
  induction m with
  | nil => simp [mapSet, mapGet]
  | cons kv rest ih =>
    obtain ⟨ek, ev⟩ := kv
    by_cases h1 : ek = k
    · subst h1
      simp only [mapSet, if_pos rfl, mapGet]
      by_cases h2 : ek = q <;> simp [h2]
    · simp only [mapSet, if_neg h1, mapGet]
      rw [ih]
      by_cases h2 : ek = q
      · subst h2
        have h3 : ¬ k = ek := fun hh => h1 hh.symm
        simp [h3]
      · simp [h2]

/-- mapGet distributes over list append: the first list is consulted
first. -/
theorem mapGet_append (a b : List (String × Node)) (q : String) :
    mapGet (a ++ b) q =
      match mapGet a q with
      | some v => some v
      | none => mapGet b q := by
  induction a with
  | nil => simp [mapGet]
  | cons kv rest ih =>
    obtain ⟨ek, ev⟩ := kv
    by_cases h : ek = q <;> simp [mapGet, h, ih]

/-- Folding Go-map assignments over a field list: a lookup returns the value
of the key's last occurrence in the list, else whatever the initial map
held. -/
theorem mapGet_foldl (l : List (String × Node)) (m0 : List (String × Node))
    (q : String) :
    mapGet (l.foldl (fun m kv => mapSet m kv.1 kv.2) m0) q =
      match mapGet l.reverse q with
      | some v => some v
      | none => mapGet m0 q := by
  induction l generalizing m0 with
  | nil => simp [mapGet]
  | cons kv rest ih =>
    obtain ⟨k, v⟩ := kv
    simp only [List.foldl_cons, List.reverse_cons]
    rw [ih, mapGet_append, mapGet_mapSet]
    by_cases h : k = q
    · subst h
      cases mapGet rest.reverse k <;> simp [mapGet]
    · cases mapGet rest.reverse q <;> simp [mapGet, h]

/-- C2 counterexample: parsing an object text in which the same key occurs
twice yields an Object whose key list contains the key once per occurrence,
so Keys() of the parsed Object has duplicate entries. -/
theorem c2_counterexample_duplicate_keys :
    parseJSON "\x7b\"a\":\"x\",\"a\":\"y\"\x7d" =
      .ok (.obj ["a", "a"] [("a", .str "y")]) ∧
    ¬ (["a", "a"] : List String).Nodup :=
  ⟨rfl, by decide⟩

/-- C2 amended: for every field list, an Object built the way the parser and
Fields.NewObject build it keeps one Keys() entry per key occurrence in
emission order (so duplicate keys yield duplicate Keys() entries), while
FieldByName returns the value of the key's last occurrence (last write
wins); on the concrete duplicate-key text the parsed object accordingly has
Keys() a,a and FieldByName returning the second value. -/
theorem c2_amended_last_write_wins :
    (∀ (fields : List (String × Node)) (k : String),
      fieldByName (newObject fields) k = mapGet fields.reverse k) ∧
    (∀ fields : List (String × Node),
      keysOf (newObject fields) = fields.map Prod.fst) ∧
    keysOf ((parseJSON "\x7b\"a\":\"x\",\"a\":\"y\"\x7d").toOption.getD .null) = ["a", "a"] ∧
    ((parseJSON "\x7b\"a\":\"x\",\"a\":\"y\"\x7d").toOption.bind
      fun n => fieldByName n "a") = some (.str "y") := by
  refine ⟨fun fields k => ?_, fun fields => rfl, rfl, rfl⟩
  show mapGet (fields.foldl (fun m kv => mapSet m kv.1 kv.2) []) k = _
  rw [mapGet_foldl]
  cases mapGet fields.reverse k <;> simp [mapGet]

/-- Two anonymous embedded structs declaring a field with the same external
name x at equal depth (the failing input of C8). -/
def dupEqualFields : GoFields :=
  .cons (.mk "SA" "" true true
      (.structT "jtree.SA" (.cons (.mk "X" "x" false true (.intT 64)) .nil)))
    (.cons (.mk "SB" "" true true
      (.structT "jtree.SB" (.cons (.mk "X" "x" false true (.intT 64)) .nil)))
      .nil)

/-- A depth-2 field declared before a depth-3 field with the same external
name x (the second failing input of C8). -/
def dupDepthFields : GoFields :=
  .cons (.mk "SA" "" true true
      (.structT "jtree.SA" (.cons (.mk "X" "x" false true (.intT 64)) .nil)))
    (.cons (.mk "SC" "" true true
      (.structT "jtree.SC" (.cons (.mk "SB" "" true true
        (.structT "jtree.SB" (.cons (.mk "X" "x" false true (.intT 64)) .nil)))
        .nil)))
      .nil)

/-- C8, evaluated at the failing inputs: with two same-named fields at equal
depth 2 the field table keeps the later-declared one (access path 1,0 through
the second embedded struct, not 0,0 through the first), and that later field
is the one object decode populates; with a depth-2 field declared before a
same-named depth-3 field, the deeper one wins (access path 1,0,0).  Both
contradict the shallowest-and-topmost rule the claim (and the comment in
collectFields) states. -/
theorem c8_duplicate_field_resolution :
    (lookupS (fieldTable dupEqualFields) "x").map SField.index = some [1, 0] ∧
    (lookupS (fieldTable dupDepthFields) "x").map SField.index = some [1, 0, 0] ∧
    jtreeDecode 10 (newObject [("x", .num 5)])
      (.valid (.structT "jtree.T" dupEqualFields)
        (zeroVal (.structT "jtree.T" dupEqualFields))) [] =
      .ok (.structV [.structV [.intV 0], .structV [.intV 5]]) :=
  ⟨rfl, rfl, rfl⟩

/-- The conversion the claim wording of C5 predicts for a signed integer
destination: the number truncated toward zero and wrapped to the destination
width (two's complement), with no intermediate 64-bit saturation. -/
def specTruncSigned (q : ℚ) (w : Nat) : Int :=
  wrapSigned (ratTrunc q) w

/-- The conversion the claim wording of C5 predicts for an unsigned integer
destination: the number truncated toward zero and wrapped modulo 2 to the
width. -/
def specTruncUnsigned (q : ℚ) (w : Nat) : Nat :=
  (Int.emod (ratTrunc q) (2 ^ w)).toNat

/-- C5 counterexample: decoding the number 2 to the 63 into an int64
destination stores the saturated value 2 to the 63 minus 1, not the claimed
truncation to the width (which would wrap to minus 2 to the 63); decoding
the number minus 1 into a uint8 destination stores 0 (Uint64 clamps
negatives to zero), not the claimed truncation 255. -/
theorem c5_counterexample_saturation :
    jtreeDecode 1 (.num 9223372036854775808) (.valid (.intT 64) (.intV 0)) [] =
      .ok (.intV 9223372036854775807) ∧
    specTruncSigned 9223372036854775808 64 ≠ 9223372036854775807 ∧
    jtreeDecode 1 (.num (-1)) (.valid (.uintT 8) (.uintV 0)) [] = .ok (.uintV 0) ∧
    specTruncUnsigned (-1) 8 ≠ 0 :=
  ⟨rfl, by decide, rfl, by decide⟩

/-- C5 amended: decoding any Number into any signed integer kind always
succeeds and stores the value truncated toward zero, saturated to the int64
range, then wrapped to the destination width; for an unsigned kind it is
truncated, clamped to the uint64 range (negatives to zero), then wrapped to
the width.  For values representable in 64 bits this is exactly truncation
to the kind's width; no input is rejected and no input panics, regardless of
options and of the destination's current contents. -/
theorem c5_amended_integer_truncation (fuel : Nat) (q : ℚ) (w : Nat)
    (cur cur' : GoVal) (ops : List OptFn) :
    jtreeDecode (fuel + 1) (.num q) (.valid (.intT w) cur) ops =
      .ok (.intV (wrapSigned (clampI64 (ratTrunc q)) w)) ∧
    jtreeDecode (fuel + 1) (.num q) (.valid (.uintT w) cur') ops =
      .ok (.uintV (wrapUnsigned (clampU64 (ratTrunc q)).toNat w)) := by
  constructor <;>
    simp [jtreeDecode, decodeVal, decodeConc, decodeNum, deref]

/-- C6: when a String node is decoded into a byte-slice destination, the
contents are Base64-decoded when neither an explicit encoding option nor
string mode is set; the raw bytes of the text are copied when string mode is
set (and no explicit encoding overrides it); and an explicitly chosen
encoding scheme is used when set, its own decode error being wrapped and
returned on malformed input. -/
theorem c6_string_bytes_decode (fuel : Nat) (s : String) (cur : GoVal)
    (o : DOpt) :
    (o.enc = none → o.str = false →
      decodeVal (fuel + 1) (.str s) (.sliceT (.uintT 8)) cur o =
        match b64Decode (utf8Bytes s) with
        | .error e => .error ("jtree: " ++ e)
        | .ok buf => .ok (.sliceV (buf.map .uintV))) ∧
    (o.enc = none → o.str = true →
      decodeVal (fuel + 1) (.str s) (.sliceT (.uintT 8)) cur o =
        .ok (.sliceV ((utf8Bytes s).map .uintV))) ∧
    (∀ e : Enc, o.enc = some e →
      decodeVal (fuel + 1) (.str s) (.sliceT (.uintT 8)) cur o =
        match e.decode (utf8Bytes s) with
        | .error err => .error ("jtree: " ++ err)
        | .ok buf => .ok (.sliceV (buf.map .uintV))) := by
  obtain ⟨ostr, oenc, oglob⟩ := o
  refine ⟨fun h1 h2 => ?_, fun h1 h2 => ?_, fun e h1 => ?_⟩
  · simp only at h1 h2
    subst h1; subst h2
    simp [decodeVal, decodeConc, decodeStrNode, strEncBranch, deref, base64Enc]
  · simp only at h1 h2
    subst h1; subst h2
    simp [decodeVal, decodeConc, decodeStrNode, strEncBranch, deref]
  · simp only at h1
    subst h1
    simp [decodeVal, decodeConc, decodeStrNode, strEncBranch, deref]

/-- Witness for C6: decoding the string YWFh into a byte slice under default
options Base64-decodes it to the bytes 0x61 0x61 0x61. -/
theorem c6_string_bytes_decode_witness :
    decodeVal 1 (.str "YWFh") (.sliceT (.uintT 8)) (.sliceV []) {} =
      .ok (.sliceV [.uintV 97, .uintV 97, .uintV 97]) := by
  have h := (c6_string_bytes_decode 0 "YWFh" (.sliceV []) {}).1 rfl rfl
  exact h.trans (by rfl)

/-- Round trip of the UTF-16 model on any Unicode scalar: encoding one scalar
and decoding gives back exactly that scalar. -/
theorem utf16_roundtrip (c : Char) :
    utf16Decode (utf16EncodeRune c.toNat) = [c.toNat] := by
  have hv : c.toNat < 0xD800 ∨ (0xDFFF < c.toNat ∧ c.toNat < 0x110000) := c.valid
  rcases Nat.lt_or_ge c.toNat 0x10000 with hsmall | hbig
  · have henc : utf16EncodeRune c.toNat = [c.toNat] := by
      unfold utf16EncodeRune
      rw [if_neg (by omega), if_pos (by omega)]
    rw [henc]
    unfold utf16Decode
    rw [if_pos (by omega)]
  · have hle : c.toNat ≤ 0x10FFFF := by omega
    have henc : utf16EncodeRune c.toNat =
        [0xD800 + (c.toNat - 0x10000) / 0x400,
         0xDC00 + (c.toNat - 0x10000) % 0x400] := by
      unfold utf16EncodeRune
      rw [if_pos ⟨hbig, hle⟩]
    rw [henc]
    have hd : (c.toNat - 0x10000) / 0x400 ≤ 0x3FF := by omega
    have hm : (c.toNat - 0x10000) % 0x400 ≤ 0x3FF := by
      have := Nat.mod_lt (c.toNat - 0x10000) (y := 0x400) (by omega)
      omega
    unfold utf16Decode
    rw [if_neg (by omega), if_pos ⟨by omega, by omega, by omega⟩]
    have harith : (0xD800 + (c.toNat - 0x10000) / 0x400 - 0xD800) * 0x400 +
        (0xDC00 + (c.toNat - 0x10000) % 0x400 - 0xDC00) + 0x10000 = c.toNat := by
      have hdm := Nat.div_add_mod (c.toNat - 0x10000) 0x400
      omega
    rw [harith]
    rfl

/-- C10: in string-literal scanning, a backslash followed by any character
other than u, x, b, f, n, r, t yields that character itself in the token
text and raises no error; this covers the documented quote, backslash and
slash escapes and any undocumented escape alike. -/
theorem c10_escape_passthrough (c : Char)
    (h : c ∉ (['u', 'x', 'b', 'f', 'n', 'r', 't'] : List Char)) :
    strLit ['\\', c, '"'] = .ok (String.mk [c]) := by
  simp only [List.mem_cons, List.not_mem_nil, or_false, not_or] at h
  obtain ⟨hu, hx, hb, hf, hn, hr, ht⟩ := h
  have hmap : escMap c = c := by
    unfold escMap
    rw [if_neg hb, if_neg hf, if_neg hn, if_neg hr, if_neg ht]
  unfold strLit scanStr
  norm_num [scanStr, Except.map]
  rw [if_neg hu, if_neg hx, hmap, if_neg (by decide : ¬('"' : Char) = '\\')]
  norm_num [utf16_roundtrip, Char.ofNat_toNat]

/-- Witness for C10 at the undocumented escape backslash z. -/
theorem c10_escape_passthrough_witness :
    strLit ['\\', 'z', '"'] = .ok (String.mk ['z']) :=
  c10_escape_passthrough 'z' (by decide)

/-- Unfolding of an Array-node decode into a fixed-size array destination:
the element loop over the current slots with the ambient context. -/
theorem decodeVal_arr_array (fuel : Nat) (l : List Node) (m : Nat)
    (et : GoType) (slots : List GoVal) (opt : DOpt) :
    decodeVal (fuel + 2) (.arr l) (.arrayT m et) (.arrayV slots) opt =
      (decodeElems fuel l slots et { global := opt.global }).map .arrayV := by
  simp [decodeVal, decodeConc, deref]

/-- Unfolding of an Array-node decode into a slice destination: the element
loop over a fresh zeroed slot list of the source's length, independent of
the destination's current contents. -/
theorem decodeVal_arr_slice (fuel : Nat) (l : List Node) (et : GoType)
    (cur : GoVal) (opt : DOpt) :
    decodeVal (fuel + 2) (.arr l) (.sliceT et) cur opt =
      (decodeElems fuel l (List.replicate l.length (zeroVal et)) et
        { global := opt.global }).map .sliceV := by
  simp [decodeVal, decodeConc, deref]

/-- The element loop only ever consumes as many source elements as there are
destination slots: source elements beyond the slot count are ignored. -/
theorem decodeElems_take (fuel : Nat) (l : List Node) (slots : List GoVal)
    (et : GoType) (copt : DOpt) :
    decodeElems fuel l slots et copt =
      decodeElems fuel (l.take slots.length) slots et copt := by
  induction slots generalizing l fuel with
  | nil => cases l <;> simp [decodeElems]
  | cons s ss ih =>
    cases l with
    | nil => simp [decodeElems]
    | cons e es =>
      cases fuel with
      | zero => simp [decodeElems]
      | succ fuel' =>
        simp only [List.length_cons, List.take_succ_cons, decodeElems]
        cases hd : decodeVal fuel' e et s copt with
        | error err => rfl
        | ok v => rw [ih]

/-- On success the element loop returns exactly one value per destination
slot. -/
theorem decodeElems_length (fuel : Nat) (l : List Node) (slots : List GoVal)
    (et : GoType) (copt : DOpt) (out : List GoVal)
    (h : decodeElems fuel l slots et copt = .ok out) :
    out.length = slots.length := by
  induction slots generalizing l fuel out with
  | nil =>
    cases l <;> · simp [decodeElems] at h; simp [← h]
  | cons s ss ih =>
    cases l with
    | nil =>
      simp [decodeElems] at h
      simp [← h]
    | cons e es =>
      cases fuel with
      | zero => simp [decodeElems] at h
      | succ fuel' =>
        simp only [decodeElems] at h
        cases hd : decodeVal fuel' e et s copt with
        | error err => rw [hd] at h; simp at h
        | ok v =>
          rw [hd] at h
          cases he : decodeElems fuel' es ss et copt with
          | error err => rw [he] at h; simp [Except.map] at h
          | ok vs =>
            rw [he] at h
            simp only [Except.map, Except.ok.injEq] at h
            rw [← h]
            simp [ih fuel' es vs he]

/-- C9: decoding an Array node of length n into a fixed-size array
destination with m slots decodes exactly the first min(n, m) source elements
in order (the decode is unchanged when the source is truncated to the slot
count, so the excess elements are ignored without error), and on success one
value per destination slot is produced; decoding into a slice destination
ignores the destination's current contents entirely and on success yields a
freshly made slice of length exactly n. -/
theorem c9_array_truncation_and_slice_length (fuel : Nat) (l : List Node)
    (et : GoType) (m : Nat) (slots : List GoVal) (cur cur' : GoVal)
    (ops : List OptFn) :
    (jtreeDecode (fuel + 2) (.arr l) (.valid (.arrayT m et) (.arrayV slots)) ops =
      jtreeDecode (fuel + 2) (.arr (l.take slots.length))
        (.valid (.arrayT m et) (.arrayV slots)) ops) ∧
    (∀ out, jtreeDecode (fuel + 2) (.arr l) (.valid (.arrayT m et) (.arrayV slots)) ops =
        .ok out → ∃ vs, out = .arrayV vs ∧ vs.length = slots.length) ∧
    (jtreeDecode (fuel + 2) (.arr l) (.valid (.sliceT et) cur) ops =
      jtreeDecode (fuel + 2) (.arr l) (.valid (.sliceT et) cur') ops) ∧
    (∀ out, jtreeDecode (fuel + 2) (.arr l) (.valid (.sliceT et) cur) ops =
        .ok out → ∃ vs, out = .sliceV vs ∧ vs.length = l.length) := by
  refine ⟨?_, fun out h => ?_, ?_, fun out h => ?_⟩
  · simp only [jtreeDecode, decodeVal_arr_array]
    rw [decodeElems_take]
  · simp only [jtreeDecode, decodeVal_arr_array] at h
    cases he : decodeElems fuel l slots et { global := (applyOpts ops {}).global } with
    | error err => rw [he] at h; simp [Except.map] at h
    | ok vs =>
      rw [he] at h
      simp only [Except.map, Except.ok.injEq] at h
      exact ⟨vs, h.symm, decodeElems_length _ _ _ _ _ _ he⟩
  · simp only [jtreeDecode]
    rw [decodeVal_arr_slice, decodeVal_arr_slice]
  · simp only [jtreeDecode, decodeVal_arr_slice] at h
    cases he : decodeElems fuel l (List.replicate l.length (zeroVal et)) et
        { global := (applyOpts ops {}).global } with
    | error err => rw [he] at h; simp [Except.map] at h
    | ok vs =>
      rw [he] at h
      simp only [Except.map, Except.ok.injEq] at h
      refine ⟨vs, h.symm, ?_⟩
      have := decodeElems_length _ _ _ _ _ _ he
      simpa using this

/-- Witness for C9: a two-element source into a one-slot array decodes the
same as its one-element truncation and produces one slot; into a slice it
produces a fresh two-element slice. -/
theorem c9_array_truncation_and_slice_length_witness :
    (jtreeDecode 5 (.arr [.bool true, .bool false])
        (.valid (.arrayT 1 .boolT) (.arrayV [.boolV false])) [] =
      jtreeDecode 5 (.arr ([Node.bool true, Node.bool false].take 1))
        (.valid (.arrayT 1 .boolT) (.arrayV [.boolV false])) []) ∧
    (∃ vs, (GoVal.arrayV [.boolV true] : GoVal) = .arrayV vs ∧ vs.length = 1) ∧
    (∃ vs, (GoVal.sliceV [.boolV true, .boolV false] : GoVal) = .sliceV vs ∧
      vs.length = 2) := by
  have h := c9_array_truncation_and_slice_length 3 [.bool true, .bool false]
    .boolT 1 [.boolV false] (.sliceV []) (.sliceV [.boolV true]) []
  exact ⟨h.1, h.2.1 (.arrayV [.boolV true]) (by rfl),
    h.2.2.2 (.sliceV [.boolV true, .boolV false]) (by rfl)⟩

end Jtree
